import Mathlib

/-!
Shallow embedding of the `mgo` MongoDB wrapper (two revisions in the
repository: the current one with an `Index` descriptor struct, and an
older one whose `CreateIndices` takes a `map[string]string` plus a single
`unique` flag).

Modelling choices:
* Documents are opaque values, taken as `Nat`.
* A filter is an executable predicate on documents; the empty BSON filter
  `bson.D{}` matches every document.
* The database state maps collection names to the list of documents the
  collection holds, in insertion order.
* Driver calls can fail; failure of a primitive is injected through an
  explicit oracle argument (`Option String`: `some msg` means the driver
  reported an error with message `msg`).  The wrapper's own control flow
  (what it calls, in what order, with what arguments, and what it returns)
  is translated from the Go source.
* Every operation also returns the list of driver calls it performed, so
  that frame properties ("no delete or insert happened") are statements
  about the trace.
-/

namespace Mgo

/-- A document stored in a collection (opaque payload). -/
abbrev Doc := Nat

/-- A filter document, as the predicate it denotes on documents. -/
abbrev Filter := Doc → Bool

/-- The empty BSON filter `bson.D{}`: it matches every document. -/
def matchAll : Filter := fun _ => true

/-- The state of the bound database: each collection name is mapped to the
list of documents it currently holds. -/
abbrev DBState := String → List Doc

/-- Replace the contents of one collection, leaving the others unchanged. -/
def setColl (st : DBState) (c : String) (docs : List Doc) : DBState :=
  fun c' => if c' = c then docs else st c'

/-- Errors surfaced to the caller.  `notFound` is the driver's
`ErrNoDocuments` (produced by `FindOne(...).Decode` on a zero-match read);
every other error carries its message string (Go errors are surfaced as
values whose `Error()` is a message). -/
inductive Err where
  | notFound
  | mk (msg : String)
deriving DecidableEq

/-- Returns `true` exactly when an operation's error result is the driver's
not-found error. -/
def isNotFoundErr : Option Err → Bool
  | some .notFound => true
  | _ => false

/-- The `mongo.IndexModel` passed to `Indexes().CreateOne`: a single-field
key with a sort order, a unique flag, and an optionally-set sparse flag
(`none` when the revision never calls `SetSparse`). -/
structure IndexModel where
  keysField : String
  keysOrder : Int
  unique : Bool
  sparse : Option Bool
deriving DecidableEq

/-- One call made to the underlying driver. -/
inductive DriverCall where
  | find (coll : String)
  | cursorAll (coll : String)
  | cursorClose (coll : String)
  | deleteManyCall (coll : String) (filter : Filter)
  | insertOneCall (coll : String) (doc : Doc)
  | insertManyCall (coll : String) (docs : List Doc)
  | replaceOneCall (coll : String) (upsert : Bool)
  | updateManyCall (coll : String)
  | bulkWriteCall (coll : String) (ordered : Bool)
  | createOne (coll : String) (model : IndexModel)

/-- Go function `DeleteItems`: delegates to the driver's `DeleteMany` on the
collection; on success every document matching the filter is removed. -/
def deleteItems (st : DBState) (c : String) (f : Filter) (e : Option String) :
    Option Err × DBState × List DriverCall :=
  match e with
  | some msg => (some (.mk msg), st, [.deleteManyCall c f])
  | none => (none, setColl st c ((st c).filter fun d => !f d), [.deleteManyCall c f])

/-- Go function `InsertItem`: delegates to the driver's `InsertOne`; on success the
document is appended to the collection. -/
def insertItem (st : DBState) (c : String) (d : Doc) (e : Option String) :
    Option Err × DBState × List DriverCall :=
  match e with
  | some msg => (some (.mk msg), st, [.insertOneCall c d])
  | none => (none, setColl st c (st c ++ [d]), [.insertOneCall c d])

/-- Go function `InsertItems`: delegates to the driver's `InsertMany`. -/
def insertItems (st : DBState) (c : String) (ds : List Doc) (e : Option String) :
    Option Err × DBState × List DriverCall :=
  match e with
  | some msg => (some (.mk msg), st, [.insertManyCall c ds])
  | none => (none, setColl st c (st c ++ ds), [.insertManyCall c ds])

/-- Go function `ReplaceOne`: `DeleteItems(collection, bson.D{})`, returning its
error if it fails, then `InsertItem(collection, data)`, returning its error
if it fails; `nil` otherwise.  `delErr` and `insErr` are the failure
oracles of the two driver calls. -/
def replaceOne (st : DBState) (c : String) (d : Doc)
    (delErr insErr : Option String) : Option Err × DBState × List DriverCall :=
  match deleteItems st c matchAll delErr with
  | (some e, st₁, tr₁) => (some e, st₁, tr₁)
  | (none, st₁, tr₁) =>
    match insertItem st₁ c d insErr with
    | (r, st₂, tr₂) => (r, st₂, tr₁ ++ tr₂)

/-- Go function `ReplaceAll`: returns `nil` immediately when `len(data) == 0`;
otherwise `DeleteItems(collection, bson.D{})` then
`InsertItems(collection, data)`, each short-circuiting on error. -/
def replaceAll (st : DBState) (c : String) (data : List Doc)
    (delErr insErr : Option String) : Option Err × DBState × List DriverCall :=
  if data.length = 0 then (none, st, [])
  else
    match deleteItems st c matchAll delErr with
    | (some e, st₁, tr₁) => (some e, st₁, tr₁)
    | (none, st₁, tr₁) =>
      match insertItems st₁ c data insErr with
      | (r, st₂, tr₂) => (r, st₂, tr₁ ++ tr₂)

/-- Go function `GetItem`: `FindOne(ctx, filter).Decode(response)`.  On a
zero-match filter the driver's decode step reports `ErrNoDocuments`, the
not-found error. -/
def getItem (st : DBState) (c : String) (f : Filter) (e : Option String) :
    Option Err × Option Doc × List DriverCall :=
  match e with
  | some msg => (some (.mk msg), none, [.find c])
  | none =>
    match (st c).find? f with
    | some d => (none, some d, [.find c])
    | none => (some .notFound, none, [.find c])

/-- Go function `GetItems`: `Find` acquires a cursor (failing with the driver's
error and no cursor when `findErr` fires); on success `defer cur.Close(ctx)`
is registered, `cur.All` decodes every matching document (failing when
`decodeErr` fires), and the deferred `Close` runs on the way out of either
outcome. -/
def getItems (st : DBState) (c : String) (f : Filter)
    (findErr decodeErr : Option String) :
    Option Err × List Doc × List DriverCall :=
  match findErr with
  | some msg => (some (.mk msg), [], [.find c])
  | none =>
    match decodeErr with
    | some msg => (some (.mk msg), [], [.find c, .cursorAll c, .cursorClose c])
    | none => (none, (st c).filter f, [.find c, .cursorAll c, .cursorClose c])

/-- Replace the first document matching the filter, keeping the rest. -/
def replaceFirst : List Doc → Filter → Doc → List Doc
  | [], _, _ => []
  | d :: ds, f, item => if f d then item :: ds else d :: replaceFirst ds f item

/-- Modelled from the spec: the external driver's `ReplaceOne` applied to a
collection's documents.  It replaces the single (first) document matching
the filter; when none matches it inserts the replacement if and only if the
upsert option is set, and a zero match is never an error. -/
def driverReplaceOne (docs : List Doc) (f : Filter) (item : Doc)
    (upsert : Bool) : List Doc :=
  if docs.any f then replaceFirst docs f item
  else if upsert then docs ++ [item] else docs

/-- Go function `UpsertItem`: builds `options.Replace()` with `SetUpsert(true)` and
delegates to the driver's `ReplaceOne` with that option. -/
def upsertItem (st : DBState) (c : String) (f : Filter) (item : Doc)
    (e : Option String) : Option Err × DBState × List DriverCall :=
  match e with
  | some msg => (some (.mk msg), st, [.replaceOneCall c true])
  | none =>
    (none, setColl st c (driverReplaceOne (st c) f item true), [.replaceOneCall c true])

/-- The driver's `UpdateResult`: how many documents the filter matched and
how many were actually modified. -/
structure UpdateResult where
  matchedCount : Nat
  modifiedCount : Nat
deriving DecidableEq

/-- Modelled from the spec: the external driver's `UpdateMany` applied to a
collection's documents.  Every matching document receives the update; the
result counts the matches and, among them, the documents the update
actually changed.  A zero-match filter is not an error. -/
def driverUpdateMany (docs : List Doc) (f : Filter) (u : Doc → Doc) :
    UpdateResult × List Doc :=
  (⟨((docs.filter f)).length, ((docs.filter f).filter fun d => u d != d).length⟩,
   docs.map fun d => if f d then u d else d)

/-- Go function `UpdateItems` (current revision): delegates to the driver's
`UpdateMany` and returns its `*mongo.UpdateResult` together with its
error. -/
def updateItems (st : DBState) (c : String) (f : Filter) (u : Doc → Doc)
    (e : Option String) :
    Option Err × Option UpdateResult × DBState × List DriverCall :=
  match e with
  | some msg => (some (.mk msg), none, st, [.updateManyCall c])
  | none =>
    let r := driverUpdateMany (st c) f u
    (none, some r.1, setColl st c r.2, [.updateManyCall c])

/-- One operation of a bulk-write batch: whether the datastore rejects it,
and the effect it has on the collection's documents when applied. -/
structure WriteOp where
  fails : Bool
  apply : List Doc → List Doc

/-- Modelled from the spec: the external driver's ordered bulk execution —
operations are applied in strict batch order and execution aborts at the
first failing operation, leaving the remaining operations unapplied. -/
def applyOrdered : List Doc → List WriteOp → List Doc
  | docs, [] => docs
  | docs, op :: rest => if op.fails then docs else applyOrdered (op.apply docs) rest

/-- Modelled from the spec: the external driver's unordered bulk execution —
every non-failing operation of the batch is applied, regardless of earlier
failures. -/
def applyUnordered : List Doc → List WriteOp → List Doc
  | docs, [] => docs
  | docs, op :: rest =>
    if op.fails then applyUnordered docs rest
    else applyUnordered (op.apply docs) rest

/-- Modelled from the spec: the external driver's `BulkWrite`, dispatching
on the `ordered` option. -/
def driverBulkWrite (docs : List Doc) (ops : List WriteOp) (ordered : Bool) :
    List Doc :=
  if ordered then applyOrdered docs ops else applyUnordered docs ops

/-- Go function `BulkWrite`: builds `options.BulkWrite()` with
`SetOrdered(stopAfterFail)` and delegates to the driver's `BulkWrite` on the
collection with those options. -/
def bulkWrite (st : DBState) (c : String) (data : List WriteOp)
    (stopAfterFail : Bool) : DBState × List DriverCall :=
  (setColl st c (driverBulkWrite (st c) data stopAfterFail),
   [.bulkWriteCall c stopAfterFail])

/-- The `Index` descriptor struct of the current revision. -/
structure Index where
  Collection : String
  Field : String
  Unique : Bool
  Sparse : Bool
deriving DecidableEq

/-- The `mongo.IndexModel` the current revision builds for a descriptor:
`Keys: bson.M{index.Field: 1}` and
`Options: options.Index().SetUnique(index.Unique).SetSparse(index.Sparse)`. -/
def indexModelOf (index : Index) : IndexModel :=
  ⟨index.Field, 1, index.Unique, some index.Sparse⟩

/-- The message of the error the current revision's `CreateIndices` returns
when `Indexes().CreateOne` fails:
`fmt.Errorf("c.Indexes().CreateOne %s %s uniq: %v sparce: %v %v", ...)`,
where `%v` prints a Bool as `true`/`false` and an error as its message. -/
def createIndexErrMsg (coll field : String) (unique sparse : Bool)
    (err : String) : String :=
  "c.Indexes().CreateOne " ++ coll ++ " " ++ field ++ " uniq: " ++
    (if unique then "true" else "false") ++ " sparce: " ++
    (if sparse then "true" else "false") ++ " " ++ err

/-- Go function `CreateIndices` (current revision): for each descriptor in order,
build the index model and call `Indexes().CreateOne`; on the first driver
failure (oracle `env collection field = some msg`) return the wrapped
error, otherwise continue and finally return `nil`. -/
def createIndices (env : String → String → Option String) :
    List Index → Option Err × List DriverCall
  | [] => (none, [])
  | index :: rest =>
    let call := DriverCall.createOne index.Collection (indexModelOf index)
    match env index.Collection index.Field with
    | some msg =>
      (some (.mk (createIndexErrMsg index.Collection index.Field
        index.Unique index.Sparse msg)), [call])
    | none =>
      let r := createIndices env rest
      (r.1, call :: r.2)

/-- Go function `CreateIndex` (current revision): delegates to `CreateIndices` on
the singleton slice `[]Index{index}`. -/
def createIndex (env : String → String → Option String) (index : Index) :
    Option Err × List DriverCall :=
  createIndices env [index]

/-- Go function `CreateIndices` (older revision): takes a `map[string]string` of
collection to field (modelled as an association list) and one `unique`
flag; the index model sets `SetUnique(unique)` and never touches the sparse
option, and the error returned on a driver failure is
`fmt.Errorf("c.Indexes().CreateOne %s %s", collection, field)` — it drops
the underlying error. -/
def createIndicesV0 (env : String → String → Option String)
    (unique : Bool) : List (String × String) → Option Err × List DriverCall
  | [] => (none, [])
  | (coll, field) :: rest =>
    let call := DriverCall.createOne coll ⟨field, 1, unique, none⟩
    match env coll field with
    | some _ =>
      (some (.mk ("c.Indexes().CreateOne " ++ coll ++ " " ++ field)), [call])
    | none =>
      let r := createIndicesV0 env unique rest
      (r.1, call :: r.2)

/-- Go function `CreateIndex` (older revision): delegates to `CreateIndices` on the
singleton map `map[string]string{collection: field}`. -/
def createIndexV0 (env : String → String → Option String)
    (collection field : String) (unique : Bool) : Option Err × List DriverCall :=
  createIndicesV0 env unique [(collection, field)]

/-- The context a call runs the driver under: `context.Background()` (no
deadline) or `context.WithTimeout(context.Background(), d*time.Second)`
with a deadline `d` seconds from the call's start. -/
inductive Ctx where
  | background
  | withTimeout (seconds : Nat)
deriving DecidableEq

/-- The exported operations of the handle. -/
inductive DBOp where
  | newDatabase | close | getItemOp | getItemsOp | insertItemOp | insertItemsOp
  | updateItemOp | updateItemsOp | upsertItemOp | deleteItemOp | deleteItemsOp
  | replaceOneOp | replaceAllOp | bulkWriteOp | createIndexOp | createIndicesOp
  | dropIndexesOp | getCollectionNamesOp
deriving DecidableEq

/-- The context each operation constructs for its driver call, read off
from the source: `NewDatabase` and `Close` build
`context.WithTimeout(context.Background(), 20*time.Second)` from a literal
constant (no caller-supplied value enters the construction); every other
method uses `context.Background()`, and the compound operations inherit
`context.Background()` from the primitives they delegate to. -/
def opCtx : DBOp → Ctx
  | .newDatabase => .withTimeout 20
  | .close => .withTimeout 20
  | _ => .background

/-- Returns `true` when `sub` occurs as a contiguous substring of `s`
(comparison on the underlying character lists); used to state that a
wrapped error message preserves a given piece of text. -/
def strContains (s sub : String) : Bool := decide (sub.data <:+: s.data)

/-- Deleting with the empty filter empties the collection's list. -/
theorem filter_not_matchAll (l : List Doc) : (l.filter fun d => !matchAll d) = [] := by
  induction l with
  | nil => rfl
  | cons d l ih => simp [List.filter, matchAll, ih]

/-- Writing a collection's own current contents back is a no-op. -/
theorem setColl_self (st : DBState) (c : String) : setColl st c (st c) = st := by
  funext c'
  by_cases h : c' = c <;> simp [setColl, h]

/-- Reading the collection just written returns what was written. -/
theorem setColl_same (st : DBState) (c : String) (l : List Doc) :
    setColl st c l c = l := by
  simp [setColl]

/-- Containment as a proposition on the character lists. -/
theorem strContains_iff (s sub : String) :
    strContains s sub = true ↔ sub.data <:+: s.data :=
  decide_eq_true_iff

/-- Containment is preserved by appending on the right. -/
theorem strContains_appendL (s t sub : String) (h : strContains s sub = true) :
    strContains (s ++ t) sub = true := by
  rw [strContains_iff] at h ⊢
  rw [String.data_append]
  exact h.trans (List.prefix_append _ _).isInfix

/-- Containment is preserved by appending on the left. -/
theorem strContains_appendR (s t sub : String) (h : strContains t sub = true) :
    strContains (s ++ t) sub = true := by
  rw [strContains_iff] at h ⊢
  rw [String.data_append]
  exact h.trans (List.suffix_append _ _).isInfix

/-- A string contains itself. -/
theorem strContains_self (s : String) : strContains s s = true :=
  (strContains_iff s s).mpr (List.infix_refl _)

/-- The error message the current revision builds on an index-creation
failure contains the failing collection, the failing field, and the
underlying driver error's message. -/
theorem createIndexErrMsg_contains (coll field : String) (u s : Bool)
    (err : String) :
    strContains (createIndexErrMsg coll field u s err) coll = true ∧
    strContains (createIndexErrMsg coll field u s err) field = true ∧
    strContains (createIndexErrMsg coll field u s err) err = true := by
  unfold createIndexErrMsg
  refine ⟨?_, ?_, ?_⟩
  · exact strContains_appendL _ _ _ (strContains_appendL _ _ _
      (strContains_appendL _ _ _ (strContains_appendL _ _ _
      (strContains_appendL _ _ _ (strContains_appendL _ _ _
      (strContains_appendL _ _ _ (strContains_appendL _ _ _
      (strContains_appendR _ _ _ (strContains_self coll)))))))))
  · exact strContains_appendL _ _ _ (strContains_appendL _ _ _
      (strContains_appendL _ _ _ (strContains_appendL _ _ _
      (strContains_appendL _ _ _ (strContains_appendL _ _ _
      (strContains_appendR _ _ _ (strContains_self field)))))))
  · exact strContains_appendR _ _ _ (strContains_self err)

/-- Ordered bulk execution applies exactly the operations strictly before
the first failing one, in batch order. -/
theorem applyOrdered_eq_takeWhile (ops : List WriteOp) :
    ∀ docs, applyOrdered docs ops =
      (ops.takeWhile fun op => !op.fails).foldl (fun d op => op.apply d) docs := by
  induction ops with
  | nil => intro docs; rfl
  | cons op rest ih =>
    intro docs
    cases h : op.fails with
    | true => simp [applyOrdered, List.takeWhile_cons, h]
    | false => simp [applyOrdered, List.takeWhile_cons, h, ih]

/-- Unordered bulk execution applies exactly the non-failing operations,
in batch order. -/
theorem applyUnordered_eq_filter (ops : List WriteOp) :
    ∀ docs, applyUnordered docs ops =
      (ops.filter fun op => !op.fails).foldl (fun d op => op.apply d) docs := by
  induction ops with
  | nil => intro docs; rfl
  | cons op rest ih =>
    intro docs
    cases h : op.fails with
    | true => simp [applyUnordered, List.filter_cons, h, ih]
    | false => simp [applyUnordered, List.filter_cons, h, ih]

/-- Applying an update only to matching documents is the identity on a list
with no match. -/
theorem map_update_of_no_match (f : Filter) (u : Doc → Doc) :
    ∀ l : List Doc, (∀ d ∈ l, f d = false) →
      (l.map fun d => if f d then u d else d) = l := by
  intro l
  induction l with
  | nil => intro _; rfl
  | cons d ds ih =>
    intro h
    have hd : f d = false := h d (by simp)
    simp [hd, ih fun x hx => h x (by simp [hx])]

/-- C1: `ReplaceAll` on an empty input sequence succeeds, performs no
driver call at all (in particular no delete and no insert), and leaves the
whole database state — in particular the collection's prior contents —
unchanged. -/
theorem C1_replaceAll_empty_noop (st : DBState) (c : String)
    (delErr insErr : Option String) :
    replaceAll st c [] delErr insErr = (none, st, []) := rfl

/-- C2: `BulkWrite` passes `stopAfterFail` directly as the driver's ordered
flag; with `stopAfterFail = true` exactly the operations strictly before
the first failing one are applied, in order, and with
`stopAfterFail = false` exactly the non-failing operations of the batch
are applied. -/
theorem C2_bulkWrite_ordered_flag (st : DBState) (c : String)
    (data : List WriteOp) (b : Bool) :
    (bulkWrite st c data b).2 = [.bulkWriteCall c b] ∧
    (bulkWrite st c data true).1 c =
      (data.takeWhile fun op => !op.fails).foldl (fun d op => op.apply d) (st c) ∧
    (bulkWrite st c data false).1 c =
      (data.filter fun op => !op.fails).foldl (fun d op => op.apply d) (st c) := by
  refine ⟨rfl, ?_, ?_⟩
  · simp [bulkWrite, setColl_same, driverBulkWrite, applyOrdered_eq_takeWhile]
  · simp [bulkWrite, setColl_same, driverBulkWrite, applyUnordered_eq_filter]

/-- C3: `ReplaceOne` is delete-then-insert and not atomic.  If the delete
step fails its error is returned, the insert is never attempted (the trace
holds only the delete call) and the state is untouched; if the insert step
fails after the delete succeeded, the insert error is returned and the
collection is left empty, not rolled back; on success the collection holds
exactly the new document and the trace is the delete call followed by the
insert call. -/
theorem C3_replaceOne_delete_then_insert (st : DBState) (c : String) (d : Doc)
    (e : String) (insE : Option String) :
    replaceOne st c d (some e) insE =
      (some (.mk e), st, [.deleteManyCall c matchAll]) ∧
    replaceOne st c d none (some e) =
      (some (.mk e), setColl st c [],
       [.deleteManyCall c matchAll, .insertOneCall c d]) ∧
    replaceOne st c d none none =
      (none, setColl (setColl st c []) c [d],
       [.deleteManyCall c matchAll, .insertOneCall c d]) := by
  refine ⟨rfl, ?_, ?_⟩
  · simp [replaceOne, deleteItems, insertItem, filter_not_matchAll]
  · simp [replaceOne, deleteItems, insertItem, filter_not_matchAll, setColl_same]

/-- C4 counterexample: in the older revision, a failing
`Indexes().CreateOne` with underlying driver error `boom` on collection
`users`, field `email`, yields an error whose message does not contain the
underlying error's message — the underlying error is not preserved. -/
theorem C4_cex_v0_drops_underlying_error :
    (createIndicesV0 (fun _ _ => some "boom") true [("users", "email")]).1 =
      some (Err.mk "c.Indexes().CreateOne users email") ∧
    strContains "c.Indexes().CreateOne users email" "boom" = false := by
  refine ⟨by decide, by decide⟩

/-- C4 amended: on an index-creation failure, the current revision returns
the underlying driver error wrapped in a message containing the failing
collection, the failing field and the underlying error's message, while
the older revision returns an error naming only the failing collection and
field, dropping the underlying error's message. -/
theorem C4_amended_error_wrapping
    (env : String → String → Option String) (index : Index) (rest : List Index)
    (coll field : String) (unique : Bool) (restV0 : List (String × String))
    (msg : String)
    (h1 : env index.Collection index.Field = some msg)
    (h2 : env coll field = some msg) :
    (createIndices env (index :: rest)).1 =
      some (Err.mk (createIndexErrMsg index.Collection index.Field
        index.Unique index.Sparse msg)) ∧
    strContains (createIndexErrMsg index.Collection index.Field
      index.Unique index.Sparse msg) index.Collection = true ∧
    strContains (createIndexErrMsg index.Collection index.Field
      index.Unique index.Sparse msg) index.Field = true ∧
    strContains (createIndexErrMsg index.Collection index.Field
      index.Unique index.Sparse msg) msg = true ∧
    (createIndicesV0 env unique ((coll, field) :: restV0)).1 =
      some (Err.mk ("c.Indexes().CreateOne " ++ coll ++ " " ++ field)) ∧
    strContains ("c.Indexes().CreateOne " ++ coll ++ " " ++ field) coll = true ∧
    strContains ("c.Indexes().CreateOne " ++ coll ++ " " ++ field) field = true := by
  obtain ⟨hc, hf, he⟩ := createIndexErrMsg_contains index.Collection index.Field
    index.Unique index.Sparse msg
  refine ⟨?_, hc, hf, he, ?_, ?_, ?_⟩
  · simp [createIndices, h1]
  · simp [createIndicesV0, h2]
  · exact strContains_appendL _ _ _ (strContains_appendL _ _ _
      (strContains_appendR _ _ _ (strContains_self coll)))
  · exact strContains_appendR _ _ _ (strContains_self field)

/-- Witness for the amended C4, at collection `users`, field `email`,
underlying driver error `boom`. -/
theorem C4_amended_error_wrapping_witness :
    (createIndices (fun _ _ => some "boom")
        [⟨"users", "email", true, false⟩]).1 =
      some (Err.mk (createIndexErrMsg "users" "email" true false "boom")) ∧
    strContains (createIndexErrMsg "users" "email" true false "boom")
      "users" = true ∧
    strContains (createIndexErrMsg "users" "email" true false "boom")
      "email" = true ∧
    strContains (createIndexErrMsg "users" "email" true false "boom")
      "boom" = true ∧
    (createIndicesV0 (fun _ _ => some "boom") true [("users", "email")]).1 =
      some (Err.mk ("c.Indexes().CreateOne " ++ "users" ++ " " ++ "email")) ∧
    strContains ("c.Indexes().CreateOne " ++ "users" ++ " " ++ "email")
      "users" = true ∧
    strContains ("c.Indexes().CreateOne " ++ "users" ++ " " ++ "email")
      "email" = true :=
  C4_amended_error_wrapping (fun _ _ => some "boom")
    ⟨"users", "email", true, false⟩ [] "users" "email" true [] "boom" rfl rfl

/-- C5: every driver call made by the current revision's `CreateIndices`
creates, for the corresponding descriptor, a single-field index whose key
is the descriptor's field mapped to ascending order `1`, with the unique
flag set to the descriptor's `Unique` and the sparse flag set to the
descriptor's `Sparse`; when no call fails, exactly one such call is made
per descriptor, in order. -/
theorem C5_createIndices_single_field_ascending
    (env : String → String → Option String) (idxs : List Index) :
    (createIndices env idxs).2 <+:
      (idxs.map fun i =>
        DriverCall.createOne i.Collection ⟨i.Field, 1, i.Unique, some i.Sparse⟩) ∧
    (createIndices (fun _ _ => none) idxs).2 =
      idxs.map fun i =>
        DriverCall.createOne i.Collection ⟨i.Field, 1, i.Unique, some i.Sparse⟩ := by
  constructor
  · induction idxs with
    | nil => exact List.nil_prefix
    | cons i rest ih =>
      cases h : env i.Collection i.Field with
      | some msg =>
        have htr : (createIndices env (i :: rest)).2 =
            [DriverCall.createOne i.Collection (indexModelOf i)] := by
          simp [createIndices, h]
        rw [htr, List.map_cons]
        exact List.cons_prefix_cons.mpr ⟨rfl, List.nil_prefix⟩
      | none =>
        have htr : (createIndices env (i :: rest)).2 =
            DriverCall.createOne i.Collection (indexModelOf i) ::
              (createIndices env rest).2 := by
          simp [createIndices, h]
        rw [htr, List.map_cons]
        exact List.cons_prefix_cons.mpr ⟨rfl, ih⟩
  · induction idxs with
    | nil => rfl
    | cons i rest ih =>
      have htr : (createIndices (fun _ _ => none) (i :: rest)).2 =
          DriverCall.createOne i.Collection (indexModelOf i) ::
            (createIndices (fun _ _ => none) rest).2 := by
        simp [createIndices]
      rw [htr, List.map_cons, ih]
      rfl

/-- C6: the context each operation constructs carries a deadline exactly
when the operation is `NewDatabase` (connect) or `Close` (disconnect), and
that deadline is the fixed constant of 20 seconds; every other operation
runs under `context.Background()`, with no deadline. -/
theorem C6_fixed_timeout_connect_disconnect (op : DBOp) :
    opCtx op =
      (if op = DBOp.newDatabase ∨ op = DBOp.close then Ctx.withTimeout 20
       else Ctx.background) := by
  cases op <;> rfl

/-- C7: `UpsertItem` passes the upsert option as `true`, so it replaces the
single (first) document matching the filter and inserts the item when no
document matches; it succeeds whenever the driver reports no write or
connectivity failure, and its error result is never the not-found error,
whatever the filter and whatever the driver failure. -/
theorem C7_upsertItem_total_no_notfound (st : DBState) (c : String)
    (f : Filter) (item : Doc) (e : Option String) :
    isNotFoundErr (upsertItem st c f item e).1 = false ∧
    (upsertItem st c f item none).1 = none ∧
    (upsertItem st c f item none).2.1 c =
      (if (st c).any f then replaceFirst (st c) f item else st c ++ [item]) := by
  refine ⟨?_, rfl, ?_⟩
  · cases e <;> rfl
  · simp [upsertItem, setColl_same, driverReplaceOne]

/-- C8: `UpdateItems` on a filter matching zero documents of the collection
returns no error together with a result reporting matched count `0` and
modified count `0`, and leaves the state unchanged. -/
theorem C8_updateItems_zero_match (st : DBState) (c : String) (f : Filter)
    (u : Doc → Doc) (h : ∀ d ∈ st c, f d = false) :
    updateItems st c f u none =
      (none, some ⟨0, 0⟩, st, [.updateManyCall c]) := by
  have hfil : (st c).filter f = [] :=
    List.filter_eq_nil_iff.mpr fun d hd => by simp [h d hd]
  have hmap := map_update_of_no_match f u (st c) h
  simp [updateItems, driverUpdateMany, hfil, hmap, setColl_self]

/-- Witness for C8: a collection holding `[1, 2]` and a filter matching
nothing. -/
theorem C8_updateItems_zero_match_witness :
    updateItems (fun _ => [1, 2]) "events" (fun _ => false) (fun d => d + 1)
      none =
      (none, some ⟨0, 0⟩, (fun _ => [1, 2]), [.updateManyCall "events"]) :=
  C8_updateItems_zero_match (fun _ => [1, 2]) "events" (fun _ => false)
    (fun d => d + 1) (fun _ _ => rfl)

/-- C9: whenever `Find` succeeds (a cursor was acquired), the trace of
`GetItems` ends with the cursor's `Close`, both when decoding succeeds and
when it fails; when `Find` itself fails no cursor exists and only the
`Find` call appears. -/
theorem C9_getItems_closes_cursor (st : DBState) (c : String) (f : Filter)
    (decodeErr : Option String) (findMsg : String) :
    (getItems st c f none decodeErr).2.2 =
      [.find c, .cursorAll c, .cursorClose c] ∧
    (getItems st c f (some findMsg) decodeErr).2.2 = [.find c] := by
  cases decodeErr <;> exact ⟨rfl, rfl⟩

/-- C10: in each revision, `CreateIndex` on one descriptor equals
`CreateIndices` on the singleton container holding that descriptor — the
same driver calls and the same result. -/
theorem C10_createIndex_delegates_singleton
    (env : String → String → Option String) (index : Index)
    (collection field : String) (unique : Bool) :
    createIndex env index = createIndices env [index] ∧
    createIndexV0 env collection field unique =
      createIndicesV0 env unique [(collection, field)] :=
  ⟨rfl, rfl⟩

end Mgo
